import Mathlib

/-!
# Dev defaults inferred from a running deployment

A shallow embedding of `pkg/cmd/init/run.go`: the functions that fill a
development descriptor (`model.Dev`) from a deployment, its running pod and a
handful of in-container probes.

Conventions of the embedding

* A Go `map[string]string` is an association list; indexing a key that is not
  there yields the empty string, as in Go.  A field that may hold the nil map
  (or the nil slice, or a nil pointer) is an `Option`.
* Go `int` is 64 bits wide: additions go through `wrap64`.
* The orchestrator collaborators (`replicasets`, `pods`, `services`,
  `k8Client`) are not part of the embedded file; their outcomes are the fields
  of a `Cluster` record that every function receives.
* Every function returns, next to its Go result, the list of collaborator
  calls and log lines it issued, in order.
* The descriptor is passed by pointer in Go and mutated in place; here each
  step returns the descriptor it leaves behind.
-/

namespace Okteto

/-! ## Data model -/

/-- Go `map[string]string` as an association list. -/
abbrev StringMap := List (String × String)

/-- Map indexing `m[key]`: the zero value `""` when the key is absent. -/
def StringMap.index (m : StringMap) (key : String) : String :=
  (m.lookup key).getD ""

/-- `model.Forward`: a local port forwarded to a remote port. -/
structure Forward where
  Local : Int
  Remote : Int
deriving DecidableEq, Repr

/-- `model.SecurityContext`, as far as `run.go` builds it. -/
structure SecurityContext where
  RunAsUser : Option Int
deriving DecidableEq, Repr

/-- `model.Command`: `Values` is a slice, `none` being the nil slice. -/
structure Command where
  Values : Option (List String)
deriving DecidableEq, Repr

/-- `model.ResourceRequirements`: `Limits` is a map from resource name to
quantity (kept in its textual form), `none` being the nil map. -/
structure ResourceRequirements where
  Limits : Option StringMap
deriving DecidableEq, Repr

/-- `model.Dev`, the development descriptor: the fields `run.go` reads or
writes. -/
structure Dev where
  Name : String
  Labels : Option StringMap
  Annotations : Option StringMap
  WorkDir : String
  Command : Command
  SecurityContext : Option SecurityContext
  Resources : ResourceRequirements
  Forward : List Forward
deriving DecidableEq, Repr

/-- `appsv1.Deployment`: the metadata `run.go` reads. -/
structure Deployment where
  Name : String
  Labels : StringMap
  Annotations : StringMap
deriving DecidableEq, Repr

/-- `apiv1.ContainerState`: at most one of the three members is set; each is a
pointer in Go and only its presence is inspected. -/
structure ContainerState where
  Waiting : Option String
  Running : Option String
  Terminated : Option String
deriving DecidableEq, Repr

/-- `apiv1.ContainerStatus`. -/
structure ContainerStatus where
  Name : String
  State : ContainerState
deriving DecidableEq, Repr

/-- `apiv1.ResourceRequirements` of a live container. -/
structure ContainerResources where
  Limits : Option StringMap
  Requests : Option StringMap
deriving DecidableEq, Repr

/-- `apiv1.Container`. -/
structure Container where
  Name : String
  Resources : ContainerResources
deriving DecidableEq, Repr

/-- `apiv1.Pod`: `Phase` is `pod.Status.Phase`, `ContainerStatuses` is
`pod.Status.ContainerStatuses`, `Containers` is `pod.Spec.Containers`. -/
structure Pod where
  Name : String
  Phase : String
  ContainerStatuses : List ContainerStatus
  Containers : List Container
deriving DecidableEq, Repr

/-- `appsv1.ReplicaSet`, an opaque handle here. -/
structure ReplicaSet where
  Name : String
deriving DecidableEq, Repr

/-- `apiv1.PodRunning`. -/
def PodRunning : String := "Running"

/-- What a function did to the outside world: a call to a collaborator or an
informational log line. -/
inductive Event where
  | call (collaborator : String)
  | info (message : String)
deriving DecidableEq, Repr

/-- Outcomes of the collaborators that `run.go` calls.  A Go result
`(value, err)` whose value is dropped when `err != nil` is an `Except`;
`GetUserByPod` keeps both members because the caller reads the value whatever
the error is. -/
structure Cluster where
  GetLocal : Option String
  GetReplicaSetByDeployment : Deployment → Except String ReplicaSet
  GetPodByReplicaSet : ReplicaSet → Except String Pod
  GetUserByPod : Pod → String → Int × Option String
  GetWorkdirByPod : Pod → String → Except String String
  CheckIfBashIsAvailable : Pod → String → Bool
  GetPortsByPod : Pod → Except String (List Int)

/-- The label keys scanned for the component name, in order of preference. -/
def componentLabels : List String :=
  ["app.kubernetes.io/component", "component", "app"]

/-! ## Machine integers -/

/-- Two's-complement reduction of an integer to the 64-bit Go `int`. -/
def wrap64 (x : Int) : Int := (x + 2 ^ 63) % 2 ^ 64 - 2 ^ 63

/-! ## Workload resolver -/

/-- The error built by `fmt.Errorf("no pod is running for deployment '%s'", d.Name)`. -/
def notRunningError (d : Deployment) : String :=
  "no pod is running for deployment '" ++ d.Name ++ "'"

/-- The loop of `getRunningPod` over `pod.Status.ContainerStatuses`: `true` when
some status carries the target name and has no `Running` member, which makes
the function return its error. -/
def containerNotRunning (container : String) : List ContainerStatus → Bool
  | [] => false
  | containerstatus :: rest =>
    if containerstatus.Name = container ∧ containerstatus.State.Running = none then true
    else containerNotRunning container rest

/-- `getRunningPod`. -/
def getRunningPod (k : Cluster) (d : Deployment) (container : String) :
    Except String Pod × List Event :=
  match k.GetReplicaSetByDeployment d with
  | .error err => (.error err, [.call "GetReplicaSetByDeployment"])
  | .ok rs =>
    match k.GetPodByReplicaSet rs with
    | .error err => (.error err, [.call "GetReplicaSetByDeployment", .call "GetPodByReplicaSet"])
    | .ok pod =>
      let events := [Event.call "GetReplicaSetByDeployment", Event.call "GetPodByReplicaSet"]
      if pod.Phase ≠ PodRunning then (.error (notRunningError d), events)
      else if containerNotRunning container pod.ContainerStatuses then
        (.error (notRunningError d), events)
      else (.ok pod, events)

/-! ## Probe-driven steps -/

/-- `setUserFromPod`. -/
def setUserFromPod (k : Cluster) (dev : Dev) (pod : Pod) (container : String) :
    Dev × List Event :=
  if dev.WorkDir ≠ "" then (dev, [])
  else
    let userID := (k.GetUserByPod pod container).1
    let logged : List Event :=
      match (k.GetUserByPod pod container).2 with
      | some err => [.info ("error getting user of the deployment: " ++ err)]
      | none => []
    if userID ≠ 0 then
      ({ dev with SecurityContext := some { RunAsUser := some userID } },
        .call "GetUserByPod" :: logged)
    else (dev, .call "GetUserByPod" :: logged)

/-- `setWorkDirFromPod`. -/
def setWorkDirFromPod (k : Cluster) (dev : Dev) (pod : Pod) (container : String) :
    Dev × List Event :=
  if dev.WorkDir ≠ "" then (dev, [])
  else
    match k.GetWorkdirByPod pod container with
    | .error err =>
      ({ dev with WorkDir := "/okteto" },
        [.call "GetWorkdirByPod", .info ("error getting workdir of the deployment: " ++ err)])
    | .ok workdir => ({ dev with WorkDir := workdir }, [.call "GetWorkdirByPod"])

/-- `setCommandFromPod`. -/
def setCommandFromPod (k : Cluster) (dev : Dev) (pod : Pod) (container : String) :
    Dev × List Event :=
  if dev.Command.Values ≠ none then (dev, [])
  else if k.CheckIfBashIsAvailable pod container then
    ({ dev with Command := { Values := some ["bash"] } }, [.call "CheckIfBashIsAvailable"])
  else
    ({ dev with Command := { Values := some ["sh"] } }, [.call "CheckIfBashIsAvailable"])

/-! ## Port forwards -/

/-- The inner loop `for seenPorts[localPort] { localPort++ }`.  `seenPorts` is
the list of keys the Go map holds (every stored value is `true`).  The loop
has no bound of its own in Go; `fuel` bounds the number of iterations and
`none` means the fuel ran out. -/
def freeLocalPort (seenPorts : List Int) : Nat → Int → Option Int
  | 0, _ => none
  | fuel + 1, localPort =>
    if localPort ∈ seenPorts then freeLocalPort seenPorts fuel (wrap64 (localPort + 1))
    else some localPort

/-- The candidate local port before collisions are resolved: the port itself,
shifted by 8000 when it is at most 1024. -/
def candidateLocalPort (port : Int) : Int :=
  if port ≤ 1024 then wrap64 (port + 8000) else port

/-- The loop of `setForwardsFromPod` over the declared ports: `seenPorts` and
`forward` are the loop-carried map and slice. -/
def forwardsLoop (fuel : Nat) : List Int → List Int → List Forward → Option (List Forward)
  | [], _, forward => some forward
  | port :: rest, seenPorts, forward =>
    match freeLocalPort seenPorts fuel (candidateLocalPort port) with
    | none => none
    | some localPort =>
      forwardsLoop fuel rest (localPort :: seenPorts)
        (forward ++ [{ Local := localPort, Remote := port }])

/-- The first loop of `setForwardsFromPod`: the local ports of the forwards
already in the descriptor. -/
def seenPortsOf (forward : List Forward) : List Int :=
  forward.foldl (fun seenPorts f => f.Local :: seenPorts) []

/-- `setForwardsFromPod`.  The outer `Option` is `none` when `fuel` does not
suffice for one of the inner loops. -/
def setForwardsFromPod (fuel : Nat) (k : Cluster) (dev : Dev) (pod : Pod) :
    Option (Except String Dev) × List Event :=
  match k.GetPortsByPod pod with
  | .error err => (some (.error err), [.call "GetPortsByPod"])
  | .ok ports =>
    match forwardsLoop fuel ports (seenPortsOf dev.Forward) dev.Forward with
    | none => (none, [.call "GetPortsByPod"])
    | some forward => (some (.ok { dev with Forward := forward }), [.call "GetPortsByPod"])

/-! ## Steps driven by the deployment and the pod specification -/

/-- The loop of `setNameAndLabelsFromDeployment` over the label keys, with the
fallthrough `dev.Name = d.Name` at its end. -/
def nameAndLabelsLoop (dev : Dev) (d : Deployment) : List String → Dev
  | [] => { dev with Name := d.Name }
  | l :: rest =>
    let component := d.Labels.index l
    if component = "" then nameAndLabelsLoop dev d rest
    else { dev with Name := component, Labels := some [(l, component)] }

/-- `setNameAndLabelsFromDeployment`. -/
def setNameAndLabelsFromDeployment (dev : Dev) (d : Deployment) : Dev :=
  nameAndLabelsLoop dev d componentLabels

/-- `setAnnotationsFromDeployment`; `fluxKey` is the constant
`okLabels.FluxAnnotation`, declared outside the embedded file. -/
def setAnnotationsFromDeployment (fluxKey : String) (dev : Dev) (d : Deployment) : Dev :=
  if d.Annotations.index fluxKey ≠ "" then
    { dev with Annotations := some [("fluxcd.io/ignore", "true")] }
  else dev

/-- The limits written by `setResourcesFromPod`: `resource.MustParse("1")` of
CPU and `resource.MustParse("2Gi")` of memory. -/
def baselineLimits : StringMap := [("cpu", "1"), ("memory", "2Gi")]

/-- The loop of `setResourcesFromPod` over `pod.Spec.Containers`; it stops at
the first container carrying the target name. -/
def resourcesLoop (dev : Dev) (container : String) : List Container → Dev
  | [] => dev
  | c :: rest =>
    if c.Name ≠ container then resourcesLoop dev container rest
    else if c.Resources.Limits ≠ none then
      { dev with Resources := { Limits := some baselineLimits } }
    else dev

/-- `setResourcesFromPod`. -/
def setResourcesFromPod (dev : Dev) (pod : Pod) (container : String) : Dev :=
  resourcesLoop dev container pod.Containers

/-! ## The pipeline -/

/-- The synthesis steps of `SetDevDefaultsFromDeployment`, from `setUserFromPod`
to `setForwardsFromPod`, on a pod that has been resolved. -/
def synthesize (fuel : Nat) (fluxKey : String) (k : Cluster) (dev : Dev) (d : Deployment)
    (pod : Pod) (container : String) : Option (Except String Dev) × List Event :=
  let s1 := setUserFromPod k dev pod container
  let s2 := setWorkDirFromPod k s1.1 pod container
  let s3 := setCommandFromPod k s2.1 pod container
  let dev4 := setNameAndLabelsFromDeployment s3.1 d
  let dev5 := setAnnotationsFromDeployment fluxKey dev4 d
  let dev6 := setResourcesFromPod dev5 pod container
  let s7 := setForwardsFromPod fuel k dev6 pod
  (s7.1, s1.2 ++ s2.2 ++ s3.2 ++ s7.2)

/-- `SetDevDefaultsFromDeployment`. -/
def SetDevDefaultsFromDeployment (fuel : Nat) (fluxKey : String) (k : Cluster) (dev : Dev)
    (d : Deployment) (container : String) : Option (Except String Dev) × List Event :=
  match k.GetLocal with
  | some err => (some (.error err), [.call "GetLocal"])
  | none =>
    match getRunningPod k d container with
    | (.error err, events) => (some (.error err), .call "GetLocal" :: events)
    | (.ok pod, events) =>
      let r := synthesize fuel fluxKey k dev d pod container
      (r.1, .call "GetLocal" :: events ++ r.2)

/-! ## Specification-side definitions -/

/-- The shifted port of the specification: `p + 8000` when `p ≤ 1024`, else `p`. -/
def specBase (p : Int) : Int := if p ≤ 1024 then p + 8000 else p

/-- The target container's state in the pod is running: the pod reports a
status for a container of that name whose state has the `Running` member. -/
def targetContainerRunning (pod : Pod) (container : String) : Prop :=
  ∃ cs ∈ pod.ContainerStatuses, cs.Name = container ∧ cs.State.Running ≠ none

instance (pod : Pod) (container : String) : Decidable (targetContainerRunning pod container) := by
  unfold targetContainerRunning
  infer_instance

/-- The target container of the pod: the first container of the pod
specification that carries the target name. -/
def targetContainer (pod : Pod) (container : String) : Option Container :=
  pod.Containers.find? (fun c => decide (c.Name = container))

/-- The container declares a limit: its limits map has an entry. -/
def declaresAnyLimit (c : Container) : Prop :=
  ∃ limits, c.Resources.Limits = some limits ∧ limits ≠ []

/-- The command of the descriptor is populated: its `Values` slice holds at
least one entry. -/
def commandPopulated (dev : Dev) : Prop :=
  ∃ values, dev.Command.Values = some values ∧ values ≠ []

/-- Every guarded field of the descriptor is already set: name, label
selector, annotations, working directory, command, security context,
resources and forward list. -/
def fullyPopulated (dev : Dev) : Prop :=
  dev.Name ≠ "" ∧ dev.Labels ≠ none ∧ dev.Annotations ≠ none ∧ dev.WorkDir ≠ "" ∧
    dev.Command.Values ≠ none ∧ dev.SecurityContext ≠ none ∧ dev.Resources.Limits ≠ none ∧
    dev.Forward ≠ []

instance (dev : Dev) : Decidable (fullyPopulated dev) := by
  unfold fullyPopulated
  infer_instance

/-! ## Example inputs -/

/-- A cluster whose probes all succeed: the pod `pod` backs every deployment,
the container user is `uid`, its working directory is `workdir`, bash is
available as `bash` says, and the declared ports are `ports`. -/
def clusterOf (pod : Pod) (uid : Int) (workdir : String) (bash : Bool) (ports : List Int) :
    Cluster where
  GetLocal := none
  GetReplicaSetByDeployment := fun d => .ok { Name := d.Name }
  GetPodByReplicaSet := fun _ => .ok pod
  GetUserByPod := fun _ _ => (uid, none)
  GetWorkdirByPod := fun _ _ => .ok workdir
  CheckIfBashIsAvailable := fun _ _ => bash
  GetPortsByPod := fun _ => .ok ports

/-- A cluster whose in-container probes fail and whose orchestrator lookups
succeed with the pod `pod` and the declared ports `ports`. -/
def failingProbes (pod : Pod) (ports : List Int) : Cluster where
  GetLocal := none
  GetReplicaSetByDeployment := fun d => .ok { Name := d.Name }
  GetPodByReplicaSet := fun _ => .ok pod
  GetUserByPod := fun _ _ => (0, some "exec failed")
  GetWorkdirByPod := fun _ _ => .error "exec failed"
  CheckIfBashIsAvailable := fun _ _ => false
  GetPortsByPod := fun _ => .ok ports

/-- A descriptor with nothing set. -/
def emptyDev : Dev where
  Name := ""
  Labels := none
  Annotations := none
  WorkDir := ""
  Command := { Values := none }
  SecurityContext := none
  Resources := { Limits := none }
  Forward := []

/-- A descriptor with every field set by its author. -/
def fullDev : Dev where
  Name := "mine"
  Labels := some [("team", "core")]
  Annotations := some [("owner", "me")]
  WorkDir := "/src"
  Command := { Values := some ["zsh"] }
  SecurityContext := some { RunAsUser := some 1000 }
  Resources := { Limits := some [("cpu", "4")] }
  Forward := [{ Local := 8080, Remote := 8080 }]

/-- A running pod with one running container `web`. -/
def webPod : Pod where
  Name := "web-5d4f8"
  Phase := "Running"
  ContainerStatuses := [{ Name := "web", State := { Waiting := none, Running := some "10:00", Terminated := none } }]
  Containers := [{ Name := "web", Resources := { Limits := none, Requests := none } }]

/-- A running pod that reports the status of its `sidecar` container only. -/
def sidecarPod : Pod where
  Name := "web-5d4f8"
  Phase := "Running"
  ContainerStatuses := [{ Name := "sidecar", State := { Waiting := none, Running := some "10:00", Terminated := none } }]
  Containers := [{ Name := "web", Resources := { Limits := none, Requests := none } },
    { Name := "sidecar", Resources := { Limits := none, Requests := none } }]

/-- A running pod whose container `web` carries an empty, non-nil limits map. -/
def emptyLimitsPod : Pod where
  Name := "web-5d4f8"
  Phase := "Running"
  ContainerStatuses := [{ Name := "web", State := { Waiting := none, Running := some "10:00", Terminated := none } }]
  Containers := [{ Name := "web", Resources := { Limits := some [], Requests := none } }]

/-- A running pod whose container `web` declares the limits `cpu: 250m` and
`memory: 64Mi`, next to a `sidecar` without limits. -/
def limitedPod : Pod where
  Name := "web-5d4f8"
  Phase := "Running"
  ContainerStatuses := [{ Name := "web", State := { Waiting := none, Running := some "10:00", Terminated := none } }]
  Containers := [{ Name := "sidecar", Resources := { Limits := none, Requests := none } },
    { Name := "web", Resources := { Limits := some [("cpu", "250m"), ("memory", "64Mi")], Requests := none } }]

/-- A deployment `web` without labels or annotations. -/
def webDeployment : Deployment where
  Name := "web"
  Labels := []
  Annotations := []

/-- A deployment `shop` labelled `component: backend` and `app: shop`. -/
def shopDeployment : Deployment where
  Name := "shop"
  Labels := [("app", "shop"), ("component", "backend")]
  Annotations := []

/-! ## Facts about the port-forward loops -/

/-- A 64-bit integer is its own two's-complement reduction. -/
theorem wrap64_eq (x : Int) (h1 : -2 ^ 63 ≤ x) (h2 : x < 2 ^ 63) : wrap64 x = x := by
  unfold wrap64
  rw [Int.emod_eq_of_lt] <;> omega

/-- The local ports recorded by the first loop are those of the forward list. -/
theorem mem_seenPortsOf (forward : List Forward) (x : Int) :
    x ∈ seenPortsOf forward ↔ x ∈ forward.map Forward.Local := by
  have key : ∀ (fs : List Forward) (acc : List Int),
      x ∈ fs.foldl (fun seenPorts f => f.Local :: seenPorts) acc ↔
        x ∈ acc ∨ x ∈ fs.map Forward.Local := by
    intro fs
    induction fs with
    | nil => intro acc; simp
    | cons f fs ih =>
      intro acc
      simp only [List.foldl_cons, ih, List.map_cons, List.mem_cons]
      tauto
  simpa [seenPortsOf] using key forward []

/-- Pigeonhole: among the `n + 1` consecutive integers from `lp`, one is not in
a list of length `n`. -/
theorem exists_unseen (seen : List Int) (lp : Int) :
    ∃ k : Nat, k ≤ seen.length ∧ lp + (k : Int) ∉ seen := by
  by_contra hcon
  push_neg at hcon
  have hsub : (List.range (seen.length + 1)).map (fun k : Nat => lp + (k : Int)) ⊆ seen := by
    intro x hx
    obtain ⟨k, hk, rfl⟩ := List.mem_map.1 hx
    exact hcon k (Nat.lt_succ_iff.1 (List.mem_range.1 hk))
  have hnd : ((List.range (seen.length + 1)).map (fun k : Nat => lp + (k : Int))).Nodup := by
    refine (List.nodup_range _).map ?_
    intro a b hab
    simpa using hab
  have hle := (hnd.subperm hsub).length_le
  simp at hle

/-- The inner loop stops at the first unseen port when that port is reached
without leaving the 64-bit range and within the fuel. -/
theorem freeLocalPort_eq (seen : List Int) :
    ∀ (k fuel : Nat) (lp : Int), -2 ^ 63 ≤ lp → lp + (k : Int) < 2 ^ 63 → k < fuel →
      lp + (k : Int) ∉ seen → (∀ j : Nat, j < k → lp + (j : Int) ∈ seen) →
      freeLocalPort seen fuel lp = some (lp + (k : Int)) := by
  intro k
  induction k with
  | zero =>
    intro fuel lp _ _ hfuel hfree _
    obtain ⟨f, rfl⟩ : ∃ f, fuel = f + 1 := ⟨fuel - 1, by omega⟩
    simp only [Nat.cast_zero, add_zero] at hfree ⊢
    simp [freeLocalPort, hfree]
  | succ k ih =>
    intro fuel lp hlo hhi hfuel hfree hseen
    obtain ⟨f, rfl⟩ : ∃ f, fuel = f + 1 := ⟨fuel - 1, by omega⟩
    have h0 : lp ∈ seen := by simpa using hseen 0 (Nat.succ_pos k)
    have hw : wrap64 (lp + 1) = lp + 1 := by
      apply wrap64_eq <;> push_cast at hhi <;> omega
    have hnext := ih f (lp + 1) (by omega) (by push_cast at hhi; omega) (by omega)
      (by push_cast at hfree; rwa [add_assoc, add_comm 1] )
      (by
        intro j hj
        have := hseen (j + 1) (by omega)
        push_cast at this
        rwa [add_assoc, add_comm 1])
    simp only [freeLocalPort, h0, if_true, hw, hnext]
    push_cast
    congr 1
    ring

/-- The inner loop returns the least unseen port at or above its start, when
the fuel exceeds the number of seen ports and no 64-bit overflow is in reach. -/
theorem freeLocalPort_isLeast (seen locals : List Int) (hmem : ∀ x, x ∈ seen ↔ x ∈ locals)
    (fuel : Nat) (lp : Int) (hlo : -2 ^ 63 ≤ lp) (hhi : lp + (locals.length : Int) < 2 ^ 63)
    (hfuel : locals.length < fuel) :
    ∃ r, freeLocalPort seen fuel lp = some r ∧ IsLeast {n : Int | lp ≤ n ∧ n ∉ locals} r := by
  classical
  have hex : ∃ k : Nat, lp + (k : Int) ∉ locals := by
    obtain ⟨k, _, hk⟩ := exists_unseen locals lp
    exact ⟨k, hk⟩
  have hk0 : Nat.find hex ≤ locals.length := by
    obtain ⟨k, hkl, hk⟩ := exists_unseen locals lp
    exact (Nat.find_min' hex hk).trans hkl
  have hfree : lp + ((Nat.find hex : Nat) : Int) ∉ locals := Nat.find_spec hex
  have hbelow : ∀ j : Nat, j < Nat.find hex → lp + (j : Int) ∈ locals := by
    intro j hj
    exact not_not.1 (Nat.find_min hex hj)
  refine ⟨lp + ((Nat.find hex : Nat) : Int), ?_, ⟨?_, hfree⟩, ?_⟩
  · apply freeLocalPort_eq seen (Nat.find hex) fuel lp hlo
    · have : ((Nat.find hex : Nat) : Int) ≤ (locals.length : Int) := by exact_mod_cast hk0
      omega
    · omega
    · exact fun h => hfree ((hmem _).1 h)
    · exact fun j hj => (hmem _).2 (hbelow j hj)
  · have : (0 : Int) ≤ ((Nat.find hex : Nat) : Int) := Int.natCast_nonneg _
    omega
  · rintro n ⟨hn1, hn2⟩
    by_contra hlt
    push_neg at hlt
    have hj : (n - lp).toNat < Nat.find hex := by
      have : ((n - lp).toNat : Int) = n - lp := Int.toNat_of_nonneg (by omega)
      have : ((n - lp).toNat : Int) < ((Nat.find hex : Nat) : Int) := by omega
      exact_mod_cast this
    have hin := hbelow _ hj
    rw [Int.toNat_of_nonneg (by omega)] at hin
    exact hn2 (by simpa using hin)

/-- The candidate local port of the source is the shifted port of the
specification as long as the port is a 64-bit integer. -/
theorem candidateLocalPort_eq (p : Int) (hlo : -2 ^ 63 ≤ p) :
    candidateLocalPort p = if p ≤ 1024 then p + 8000 else p := by
  unfold candidateLocalPort
  split
  · rw [wrap64_eq] <;> omega
  · rfl

/-- The wrapped value is congruent to the exact one modulo `2 ^ 64`. -/
theorem wrap64_emod (x : Int) : wrap64 x % 2 ^ 64 = x % 2 ^ 64 := by
  unfold wrap64
  omega

/-- After `i` wrapping increments the port is congruent to `lp + i`. -/
theorem iterate_increment_emod (lp : Int) :
    ∀ i : Nat, ((fun x : Int => wrap64 (x + 1))^[i] lp) % 2 ^ 64 = (lp + (i : Int)) % 2 ^ 64 := by
  intro i
  induction i with
  | zero => simp
  | succ i ih =>
    rw [Function.iterate_succ_apply', wrap64_emod]
    push_cast
    omega

/-- Fewer than `2 ^ 64` wrapping increments never come back to a port already
visited. -/
theorem iterate_increment_injOn (lp : Int) (i j : Nat) (hi : i < 2 ^ 64) (hj : j < 2 ^ 64)
    (h : (fun x : Int => wrap64 (x + 1))^[i] lp = (fun x : Int => wrap64 (x + 1))^[j] lp) :
    i = j := by
  have hi' := iterate_increment_emod lp i
  have hj' := iterate_increment_emod lp j
  rw [h] at hi'
  rw [hi'] at hj'
  have hi2 : (i : Int) < 2 ^ 64 := by exact_mod_cast hi
  have hj2 : (j : Int) < 2 ^ 64 := by exact_mod_cast hj
  have : (i : Int) = (j : Int) := by omega
  exact_mod_cast this

/-- Pigeonhole on the wrapping increments: within the first `n + 1` ports
visited from `lp`, one is not in a list of length `n < 2 ^ 64`. -/
theorem exists_unseen_iterate (seen : List Int) (lp : Int) (hsize : seen.length < 2 ^ 64) :
    ∃ i : Nat, i ≤ seen.length ∧ (fun x : Int => wrap64 (x + 1))^[i] lp ∉ seen := by
  by_contra hcon
  push_neg at hcon
  have hsub : (List.range (seen.length + 1)).map
      (fun i : Nat => (fun x : Int => wrap64 (x + 1))^[i] lp) ⊆ seen := by
    intro x hx
    obtain ⟨i, hi, rfl⟩ := List.mem_map.1 hx
    exact hcon i (Nat.lt_succ_iff.1 (List.mem_range.1 hi))
  have hnd : ((List.range (seen.length + 1)).map
      (fun i : Nat => (fun x : Int => wrap64 (x + 1))^[i] lp)).Nodup := by
    refine List.Nodup.map_on ?_ (List.nodup_range _)
    intro i hi j hj hij
    have hi' := List.mem_range.1 hi
    have hj' := List.mem_range.1 hj
    exact iterate_increment_injOn lp i j (by omega) (by omega) hij
  have hle := (hnd.subperm hsub).length_le
  simp at hle

/-- The inner loop stops at the first port, along the wrapping increments,
that is not seen, when the fuel reaches that far. -/
theorem freeLocalPort_iterate (seen : List Int) :
    ∀ (i fuel : Nat) (lp : Int), i < fuel →
      (fun x : Int => wrap64 (x + 1))^[i] lp ∉ seen →
      (∀ j : Nat, j < i → (fun x : Int => wrap64 (x + 1))^[j] lp ∈ seen) →
      freeLocalPort seen fuel lp = some ((fun x : Int => wrap64 (x + 1))^[i] lp) := by
  intro i
  induction i with
  | zero =>
    intro fuel lp hfuel hfree _
    obtain ⟨f, rfl⟩ : ∃ f, fuel = f + 1 := ⟨fuel - 1, by omega⟩
    simp only [Function.iterate_zero, id_eq] at hfree ⊢
    simp [freeLocalPort, hfree]
  | succ i ih =>
    intro fuel lp hfuel hfree hseen
    obtain ⟨f, rfl⟩ : ∃ f, fuel = f + 1 := ⟨fuel - 1, by omega⟩
    have h0 : lp ∈ seen := by simpa using hseen 0 (Nat.succ_pos i)
    have hnext := ih f (wrap64 (lp + 1)) (by omega)
      (by simpa only [Function.iterate_succ_apply] using hfree)
      (by
        intro j hj
        simpa only [Function.iterate_succ_apply] using hseen (j + 1) (by omega))
    simp only [freeLocalPort, h0, if_true, hnext, Function.iterate_succ_apply]

/-- The inner loop returns, and returns a port that is not seen, when the fuel
exceeds the number of seen ports and fewer than `2 ^ 64` ports are seen:
overflow or not. -/
theorem freeLocalPort_terminates (seen locals : List Int) (hmem : ∀ x, x ∈ seen ↔ x ∈ locals)
    (fuel : Nat) (lp : Int) (hfuel : locals.length < fuel) (hsize : locals.length < 2 ^ 64) :
    ∃ r, freeLocalPort seen fuel lp = some r ∧ r ∉ locals := by
  classical
  have hex : ∃ i : Nat, (fun x : Int => wrap64 (x + 1))^[i] lp ∉ locals := by
    obtain ⟨i, _, hi⟩ := exists_unseen_iterate locals lp hsize
    exact ⟨i, hi⟩
  have hi0 : Nat.find hex ≤ locals.length := by
    obtain ⟨i, hil, hi⟩ := exists_unseen_iterate locals lp hsize
    exact (Nat.find_min' hex hi).trans hil
  refine ⟨_, freeLocalPort_iterate seen (Nat.find hex) fuel lp (by omega)
    (fun h => Nat.find_spec hex ((hmem _).1 h))
    (fun j hj => (hmem _).2 (not_not.1 (Nat.find_min hex hj))), Nat.find_spec hex⟩

/-- Loop invariant of `forwardsLoop`.  With enough fuel and fewer than `2 ^ 64`
forwards in all, the loop returns the old list followed by one forward per
declared port, each on a local port absent from the entries before it; for a
declared port whose search cannot reach a 64-bit overflow, that local port is
the least free one at or above the shifted port. -/
theorem forwardsLoop_spec (fuel : Nat) :
    ∀ (ports seen : List Int) (forward : List Forward),
      (∀ x, x ∈ seen ↔ x ∈ forward.map Forward.Local) →
      forward.length + ports.length ≤ fuel →
      (ports ≠ [] → forward.length + ports.length ≤ 2 ^ 64) →
      ∃ news : List Forward,
        forwardsLoop fuel ports seen forward = some (forward ++ news) ∧
        news.map Forward.Remote = ports ∧
        ∀ (i : Nat) (hi : i < news.length),
          (news[i]).Local ∉ (forward ++ news.take i).map Forward.Local ∧
          (-2 ^ 63 ≤ (news[i]).Remote →
            (news[i]).Remote + 8000 + ((forward.length + ports.length : Nat) : Int) < 2 ^ 63 →
            IsLeast {n : Int | specBase (news[i]).Remote ≤ n ∧
                n ∉ (forward ++ news.take i).map Forward.Local}
              (news[i]).Local) := by
  intro ports
  induction ports with
  | nil =>
    intro seen forward _ _ _
    exact ⟨[], by simp [forwardsLoop], rfl, fun i hi => absurd hi (by simp)⟩
  | cons p rest ih =>
    intro seen forward hmem hfuel hsize
    have hsize := hsize (List.cons_ne_nil _ _)
    simp only [List.length_cons] at hfuel hsize
    obtain ⟨r, hr, hfresh⟩ := freeLocalPort_terminates seen (forward.map Forward.Local) hmem fuel
      (candidateLocalPort p) (by rw [List.length_map]; omega) (by rw [List.length_map]; omega)
    obtain ⟨news, hloop, hrem, hidx⟩ := ih (r :: seen) (forward ++ [{ Local := r, Remote := p }])
      (by
        intro x
        simp only [List.mem_cons, List.map_append, List.map_cons, List.map_nil, List.mem_append,
          List.mem_singleton, hmem]
        tauto)
      (by simp only [List.length_append, List.length_singleton]; omega)
      (by intro _; simp only [List.length_append, List.length_singleton]; omega)
    refine ⟨{ Local := r, Remote := p } :: news, ?_, ?_, ?_⟩
    · simp only [forwardsLoop, hr, hloop, List.append_assoc, List.singleton_append]
    · simp [hrem]
    · intro i hi
      cases i with
      | zero =>
        simp only [List.getElem_cons_zero, List.take_zero, List.append_nil]
        refine ⟨hfresh, fun hlo hhi => ?_⟩
        have hcand := candidateLocalPort_eq p hlo
        obtain ⟨r', hr', hleast⟩ := freeLocalPort_isLeast seen (forward.map Forward.Local) hmem
          fuel (candidateLocalPort p)
          (by rw [hcand]; split <;> omega)
          (by
            rw [hcand, List.length_map]
            simp only [List.length_cons] at hhi
            push_cast at hhi
            split <;> omega)
          (by rw [List.length_map]; omega)
        have hrr : r = r' := by
          rw [hr] at hr'
          exact Option.some.inj hr'
        rw [hrr]
        have hb : specBase p = candidateLocalPort p := by rw [hcand]; rfl
        rw [hb]
        exact hleast
      | succ i =>
        simp only [List.length_cons, Nat.add_lt_add_iff_right] at hi
        have := hidx i hi
        simp only [List.length_append, List.length_singleton] at this
        have hlen : forward.length + 1 + rest.length = forward.length + (rest.length + 1) := by
          omega
        rw [hlen] at this
        simpa only [List.getElem_cons_succ, List.take_succ_cons, List.append_assoc,
          List.singleton_append, List.length_cons] using this

/-- Entries that are each absent from what precedes them are pairwise distinct
and absent from the initial list. -/
theorem nodup_of_fresh : ∀ (news pre : List Int),
    (∀ (i : Nat) (hi : i < news.length), news[i] ∉ pre ++ news.take i) →
    news.Nodup ∧ ∀ x ∈ news, x ∉ pre := by
  intro news
  induction news with
  | nil => intro pre _; simp
  | cons a t ih =>
    intro pre h
    have ha : a ∉ pre := by simpa using h 0 (by simp)
    obtain ⟨hnd, hdis⟩ := ih (pre ++ [a]) (by
      intro i hi
      have := h (i + 1) (by simpa using hi)
      simpa only [List.getElem_cons_succ, List.take_succ_cons, List.append_assoc,
        List.singleton_append] using this)
    refine ⟨List.nodup_cons.2 ⟨fun hat => ?_, hnd⟩, ?_⟩
    · exact hdis a hat (by simp)
    · intro x hx
      rcases List.mem_cons.1 hx with rfl | hx
      · exact ha
      · exact fun hxp => hdis x hx (List.mem_append_left _ hxp)

/-- Unfolding of `setForwardsFromPod` on a successful ports probe. -/
theorem setForwardsFromPod_ok (fuel : Nat) (k : Cluster) (dev : Dev) (pod : Pod)
    (ports : List Int) (hprobe : k.GetPortsByPod pod = .ok ports) (forward : List Forward)
    (hloop : forwardsLoop fuel ports (seenPortsOf dev.Forward) dev.Forward = some forward) :
    setForwardsFromPod fuel k dev pod =
      (some (.ok { dev with Forward := forward }), [.call "GetPortsByPod"]) := by
  simp only [setForwardsFromPod, hprobe, hloop]

/-! ## Port forwards: properties -/

/-- C2: on a successful ports probe, `setForwardsFromPod` returns the
descriptor with its forward list extended, the old entries unchanged in front,
by exactly one entry per declared port in probe order; the entry for port `p`
has remote `p` and its local port is the least integer that is at least
`specBase p` (`p + 8000` if `p ≤ 1024`, else `p`) and is not the local port of
an older entry or of an entry appended before it.  For declared ports
`[80, 9000, 8080]` and an empty forward list the entries are `8080:80`,
`9000:9000`, `8081:8080`.  The hypotheses fix the setting of a real run: the
fuel covers the iterations the inner loop can need, and the ports are 64-bit
integers far enough from the top of the range that `localPort++` cannot
overflow (every 32-bit port with any list that fits in memory is). -/
theorem setForwardsFromPod_least_free (fuel : Nat) (k : Cluster) (dev : Dev) (pod : Pod)
    (ports : List Int) (hprobe : k.GetPortsByPod pod = .ok ports)
    (hfuel : dev.Forward.length + ports.length ≤ fuel)
    (hrange : ∀ p ∈ ports, -2 ^ 63 ≤ p ∧
      p + 8000 + ((dev.Forward.length + ports.length : Nat) : Int) < 2 ^ 63) :
    (∃ news : List Forward,
      (setForwardsFromPod fuel k dev pod).1 =
        some (.ok { dev with Forward := dev.Forward ++ news }) ∧
      news.map Forward.Remote = ports ∧
      ∀ (i : Nat) (hi : i < news.length),
        IsLeast {n : Int | specBase (news[i]).Remote ≤ n ∧
            n ∉ (dev.Forward ++ news.take i).map Forward.Local}
          (news[i]).Local) ∧
    (∀ (k0 : Cluster) (dev0 : Dev) (pod0 : Pod), dev0.Forward = [] →
      k0.GetPortsByPod pod0 = .ok [80, 9000, 8080] →
      (setForwardsFromPod 3 k0 dev0 pod0).1 =
        some (.ok { dev0 with Forward := [{ Local := 8080, Remote := 80 },
          { Local := 9000, Remote := 9000 }, { Local := 8081, Remote := 8080 }] })) := by
  constructor
  · have hsize : ports ≠ [] → dev.Forward.length + ports.length ≤ 2 ^ 64 := by
      intro hne
      obtain ⟨p, hp⟩ := List.exists_mem_of_ne_nil ports hne
      have h := hrange p hp
      have : ((dev.Forward.length + ports.length : Nat) : Int) ≤ 2 ^ 64 := by omega
      exact_mod_cast this
    obtain ⟨news, hloop, hrem, hidx⟩ := forwardsLoop_spec fuel ports (seenPortsOf dev.Forward)
      dev.Forward (mem_seenPortsOf dev.Forward) hfuel hsize
    refine ⟨news, ?_, hrem, ?_⟩
    · rw [setForwardsFromPod_ok fuel k dev pod ports hprobe _ hloop]
    · intro i hi
      have hmem : (news[i]).Remote ∈ ports := by
        rw [← hrem]
        exact List.mem_map_of_mem _ (List.getElem_mem _)
      exact (hidx i hi).2 (hrange _ hmem).1 (hrange _ hmem).2
  · intro k0 dev0 pod0 hF hP
    have hloop : forwardsLoop 3 [80, 9000, 8080] (seenPortsOf dev0.Forward) dev0.Forward =
        some [{ Local := 8080, Remote := 80 }, { Local := 9000, Remote := 9000 },
          { Local := 8081, Remote := 8080 }] := by
      rw [hF]; decide
    rw [setForwardsFromPod_ok 3 k0 dev0 pod0 _ hP _ hloop]

/-- Witness of C2: the descriptor already forwards `8080:8080`, the pod
declares the ports `80` and `9000`. -/
theorem setForwardsFromPod_least_free_witness :
    (∃ news : List Forward,
      (setForwardsFromPod 3 (clusterOf webPod 0 "/app" true [80, 9000])
          { emptyDev with Forward := [{ Local := 8080, Remote := 8080 }] } webPod).1 =
        some (.ok { emptyDev with Forward := [{ Local := 8080, Remote := 8080 }] ++ news }) ∧
      news.map Forward.Remote = [80, 9000] ∧
      ∀ (i : Nat) (hi : i < news.length),
        IsLeast {n : Int | specBase (news[i]).Remote ≤ n ∧
            n ∉ ([Forward.mk 8080 8080] ++ news.take i).map Forward.Local}
          (news[i]).Local) :=
  (setForwardsFromPod_least_free 3 (clusterOf webPod 0 "/app" true [80, 9000])
    { emptyDev with Forward := [{ Local := 8080, Remote := 8080 }] } webPod [80, 9000] rfl
    (by decide) (by decide)).1

/-- C1, as stated, fails: a descriptor that already forwards the local port
`8080` twice keeps both entries; with the declared port `9000` the returned
forward list has the local ports `8080, 8080, 9000`. -/
theorem setForwardsFromPod_keeps_duplicates :
    ∃ dev' : Dev,
      (setForwardsFromPod 3 (clusterOf webPod 0 "/app" true [9000])
          { emptyDev with Forward := [{ Local := 8080, Remote := 80 },
            { Local := 8080, Remote := 81 }] } webPod).1 = some (.ok dev') ∧
      dev'.Forward.map Forward.Local = [8080, 8080, 9000] ∧
      ¬ (dev'.Forward.map Forward.Local).Nodup :=
  ⟨_, rfl, by decide, by decide⟩

/-- C1, amended: on a successful ports probe the forward list that
`setForwardsFromPod` leaves is the old list followed by new entries whose local
ports are pairwise distinct and differ from every old local port; hence the
whole list has no two entries with the same local port whenever the old list
had none.  This holds whether or not `localPort++` overflows; the hypotheses
only make the loops return: the fuel covers their iterations and fewer than
`2 ^ 64` forwards exist in all, so that a free 64-bit port is left. -/
theorem setForwardsFromPod_locals_nodup (fuel : Nat) (k : Cluster) (dev : Dev) (pod : Pod)
    (ports : List Int) (hprobe : k.GetPortsByPod pod = .ok ports)
    (hfuel : dev.Forward.length + ports.length ≤ fuel)
    (hsize : dev.Forward.length + ports.length < 2 ^ 64) :
    ∃ news : List Forward,
      (setForwardsFromPod fuel k dev pod).1 =
        some (.ok { dev with Forward := dev.Forward ++ news }) ∧
      (news.map Forward.Local).Nodup ∧
      (∀ x ∈ news.map Forward.Local, x ∉ dev.Forward.map Forward.Local) ∧
      ((dev.Forward.map Forward.Local).Nodup →
        ((dev.Forward ++ news).map Forward.Local).Nodup) := by
  obtain ⟨news, hloop, _, hidx⟩ := forwardsLoop_spec fuel ports (seenPortsOf dev.Forward)
    dev.Forward (mem_seenPortsOf dev.Forward) hfuel (fun _ => hsize.le)
  have hfresh := nodup_of_fresh (news.map Forward.Local) (dev.Forward.map Forward.Local) (by
    intro i hi
    have hi' : i < news.length := by simpa using hi
    have h := (hidx i hi').1
    simpa only [List.getElem_map, List.map_append, List.map_take] using h)
  refine ⟨news, ?_, hfresh.1, hfresh.2, ?_⟩
  · rw [setForwardsFromPod_ok fuel k dev pod ports hprobe _ hloop]
  · intro hold
    rw [List.map_append]
    exact List.Nodup.append hold hfresh.1 (fun x hx hx' => hfresh.2 x hx' hx)

/-- Witness of C1 (amended): the descriptor forwards `8080:8080`, the pod
declares `80` and `8080`. -/
theorem setForwardsFromPod_locals_nodup_witness :
    ∃ news : List Forward,
      (setForwardsFromPod 3 (clusterOf webPod 0 "/app" true [80, 8080])
          { emptyDev with Forward := [{ Local := 8080, Remote := 8080 }] } webPod).1 =
        some (.ok { emptyDev with Forward := [Forward.mk 8080 8080] ++ news }) ∧
      (news.map Forward.Local).Nodup ∧
      (∀ x ∈ news.map Forward.Local, x ∉ [Forward.mk 8080 8080].map Forward.Local) ∧
      (([Forward.mk 8080 8080].map Forward.Local).Nodup →
        (([Forward.mk 8080 8080] ++ news).map Forward.Local).Nodup) :=
  setForwardsFromPod_locals_nodup 3 (clusterOf webPod 0 "/app" true [80, 8080])
    { emptyDev with Forward := [{ Local := 8080, Remote := 8080 }] } webPod [80, 8080] rfl
    (by decide) (by decide)

/-- C6: on a successful ports probe, every entry that `setForwardsFromPod`
appends for a privileged remote port (`1 ≤ p ≤ 1024`) has a local port above
`1024`, whatever the old forward list and the other declared ports are.  The
hypotheses are those of a real run: the fuel covers the iterations of the
loops, and the forwards are fewer than `2 ^ 62`, far more than memory holds. -/
theorem setForwardsFromPod_privileged (fuel : Nat) (k : Cluster) (dev : Dev) (pod : Pod)
    (ports : List Int) (hprobe : k.GetPortsByPod pod = .ok ports)
    (hfuel : dev.Forward.length + ports.length ≤ fuel)
    (hsize : dev.Forward.length + ports.length < 2 ^ 62) :
    ∃ news : List Forward,
      (setForwardsFromPod fuel k dev pod).1 =
        some (.ok { dev with Forward := dev.Forward ++ news }) ∧
      news.map Forward.Remote = ports ∧
      ∀ e ∈ news, 1 ≤ e.Remote → e.Remote ≤ 1024 → 1024 < e.Local := by
  obtain ⟨news, hloop, hrem, hidx⟩ := forwardsLoop_spec fuel ports (seenPortsOf dev.Forward)
    dev.Forward (mem_seenPortsOf dev.Forward) hfuel (fun _ => by omega)
  refine ⟨news, ?_, hrem, ?_⟩
  · rw [setForwardsFromPod_ok fuel k dev pod ports hprobe _ hloop]
  · intro e he h1 h2
    obtain ⟨i, hi, rfl⟩ := List.getElem_of_mem he
    have hsz : ((dev.Forward.length + ports.length : Nat) : Int) < 2 ^ 62 := by
      exact_mod_cast hsize
    have h := ((hidx i hi).2 (by omega) (by omega)).1.1
    unfold specBase at h
    rw [if_pos h2] at h
    omega

/-- Witness of C6: the local ports `8080` and `8081` are taken and the pod
declares the privileged ports `80` and `81`. -/
theorem setForwardsFromPod_privileged_witness :
    ∃ news : List Forward,
      (setForwardsFromPod 4 (clusterOf webPod 0 "/app" true [80, 81])
          { emptyDev with Forward := [{ Local := 8080, Remote := 1 },
            { Local := 8081, Remote := 2 }] } webPod).1 =
        some (.ok { emptyDev with Forward :=
          [Forward.mk 8080 1, Forward.mk 8081 2] ++ news }) ∧
      news.map Forward.Remote = [80, 81] ∧
      ∀ e ∈ news, 1 ≤ e.Remote → e.Remote ≤ 1024 → 1024 < e.Local :=
  setForwardsFromPod_privileged 4 (clusterOf webPod 0 "/app" true [80, 81])
    { emptyDev with Forward := [{ Local := 8080, Remote := 1 },
      { Local := 8081, Remote := 2 }] } webPod [80, 81] rfl (by decide) (by decide)

/-! ## Workload resolver: properties -/

/-- The status loop rejects exactly when some status of the target name has no
`Running` member. -/
theorem containerNotRunning_eq_false (container : String) (statuses : List ContainerStatus) :
    containerNotRunning container statuses = false ↔
      ∀ cs ∈ statuses, cs.Name = container → cs.State.Running ≠ none := by
  induction statuses with
  | nil => simp [containerNotRunning]
  | cons cs rest ih =>
    by_cases h : cs.Name = container ∧ cs.State.Running = none
    · simp only [containerNotRunning, h, and_self, if_true, List.mem_cons, forall_eq_or_imp]
      simp [h.1, h.2]
    · simp only [containerNotRunning, h, if_false, ih, List.mem_cons, forall_eq_or_imp]
      constructor
      · exact fun hr => ⟨fun hn hrun => h ⟨hn, hrun⟩, hr⟩
      · exact fun hr => hr.2

/-- Unfolding of `getRunningPod` once both lookups have succeeded. -/
theorem getRunningPod_of_lookups (k : Cluster) (d : Deployment) (container : String)
    (rs : ReplicaSet) (pod : Pod) (hrs : k.GetReplicaSetByDeployment d = .ok rs)
    (hpod : k.GetPodByReplicaSet rs = .ok pod) :
    (getRunningPod k d container).1 =
      if pod.Phase = PodRunning ∧ containerNotRunning container pod.ContainerStatuses = false
      then .ok pod else .error (notRunningError d) := by
  simp only [getRunningPod, hrs, hpod]
  by_cases hph : pod.Phase = PodRunning
  · cases hc : containerNotRunning container pod.ContainerStatuses <;> simp [hph]
  · simp [hph]

/-- C3, as stated, fails: a pod in phase running that reports no status for
the target container `web` is returned successfully, although no state of
`web` in it is running. -/
theorem getRunningPod_without_target_status :
    (getRunningPod (clusterOf sidecarPod 0 "/app" true []) webDeployment "web").1 =
        .ok sidecarPod ∧
      ¬ (sidecarPod.Phase = PodRunning ∧ targetContainerRunning sidecarPod "web") := by
  refine ⟨rfl, ?_⟩
  rintro ⟨_, cs, hcs, hname, _⟩
  simp only [sidecarPod, List.mem_singleton] at hcs
  subst hcs
  exact absurd hname (by decide)

/-- C3, amended: when both lookups succeed with the pod `P`, `getRunningPod`
returns `P` if and only if the phase of `P` is running and no container status
of `P` carrying the target name lacks the running state (so `P` is returned
when it reports no status for the target container); when `P` reports the
target container under one status only, that is: if and only if the phase is
running and the state of the target container is running.  In every other case
the result is the error `no pod is running for deployment '<D.Name>'`. -/
theorem getRunningPod_iff (k : Cluster) (d : Deployment) (container : String)
    (rs : ReplicaSet) (pod : Pod) (hrs : k.GetReplicaSetByDeployment d = .ok rs)
    (hpod : k.GetPodByReplicaSet rs = .ok pod) :
    ((getRunningPod k d container).1 = .ok pod ↔
      pod.Phase = PodRunning ∧
        ∀ cs ∈ pod.ContainerStatuses, cs.Name = container → cs.State.Running ≠ none) ∧
    ((∃ cs ∈ pod.ContainerStatuses, cs.Name = container) →
      (pod.ContainerStatuses.map ContainerStatus.Name).Nodup →
      ((getRunningPod k d container).1 = .ok pod ↔
        pod.Phase = PodRunning ∧ targetContainerRunning pod container)) ∧
    ((getRunningPod k d container).1 ≠ .ok pod →
      (getRunningPod k d container).1 =
        .error ("no pod is running for deployment '" ++ d.Name ++ "'")) := by
  have hmain : (getRunningPod k d container).1 = .ok pod ↔
      pod.Phase = PodRunning ∧
        ∀ cs ∈ pod.ContainerStatuses, cs.Name = container → cs.State.Running ≠ none := by
    rw [getRunningPod_of_lookups k d container rs pod hrs hpod,
      ← containerNotRunning_eq_false]
    split <;> simp_all
  refine ⟨hmain, ?_, ?_⟩
  · rintro ⟨cs0, hcs0, hname0⟩ hnd
    rw [hmain]
    refine and_congr_right fun _ => ⟨fun hall => ⟨cs0, hcs0, hname0, hall cs0 hcs0 hname0⟩, ?_⟩
    rintro ⟨cs1, hcs1, hname1, hrun1⟩ cs hcs hname
    have : cs = cs1 := List.inj_on_of_nodup_map hnd hcs hcs1 (hname.trans hname1.symm)
    rw [this]
    exact hrun1
  · intro hne
    rw [getRunningPod_of_lookups k d container rs pod hrs hpod] at hne ⊢
    split
    · rename_i h
      simp [h] at hne
    · rfl

/-- Witness of C3 (amended): the pod `webPod` runs its container `web`. -/
theorem getRunningPod_iff_witness :
    (getRunningPod (clusterOf webPod 0 "/app" true []) webDeployment "web").1 = .ok webPod ↔
      webPod.Phase = PodRunning ∧
        ∀ cs ∈ webPod.ContainerStatuses, cs.Name = "web" → cs.State.Running ≠ none :=
  (getRunningPod_iff (clusterOf webPod 0 "/app" true []) webDeployment "web"
    { Name := "web" } webPod rfl rfl).1

/-! ## Name and labels: properties -/

/-- The label scan over any list of keys: the first key with a non-empty
value wins. -/
theorem nameAndLabelsLoop_first (dev : Dev) (d : Deployment) :
    ∀ (before : List String) (key : String) (later : List String),
      (∀ j ∈ before, d.Labels.index j = "") → d.Labels.index key ≠ "" →
      nameAndLabelsLoop dev d (before ++ key :: later) =
        { dev with Name := d.Labels.index key, Labels := some [(key, d.Labels.index key)] } := by
  intro before
  induction before with
  | nil =>
    intro key later _ hkey
    simp [nameAndLabelsLoop, hkey]
  | cons b before ih =>
    intro key later hbefore hkey
    have hb : d.Labels.index b = "" := hbefore b (List.mem_cons_self _ _)
    have := ih key later (fun j hj => hbefore j (List.mem_cons_of_mem _ hj)) hkey
    rw [List.cons_append]
    simp only [nameAndLabelsLoop, hb, if_true]
    exact this

/-- The label scan over any list of keys: without a non-empty value only the
name is written. -/
theorem nameAndLabelsLoop_none (dev : Dev) (d : Deployment) :
    ∀ keys : List String, (∀ j ∈ keys, d.Labels.index j = "") →
      nameAndLabelsLoop dev d keys = { dev with Name := d.Name } := by
  intro keys
  induction keys with
  | nil => intro _; rfl
  | cons b keys ih =>
    intro h
    have hb : d.Labels.index b = "" := h b (List.mem_cons_self _ _)
    simp only [nameAndLabelsLoop, hb, if_true, ih (fun j hj => h j (List.mem_cons_of_mem _ hj))]

/-- C4, as stated, fails: for a deployment without any of the three labels, a
descriptor that already has a label selector keeps it. -/
theorem setNameAndLabelsFromDeployment_keeps_labels :
    (∀ key ∈ componentLabels, webDeployment.Labels.index key = "") ∧
    (setNameAndLabelsFromDeployment { emptyDev with Labels := some [("tier", "db")] }
        webDeployment).Name = "web" ∧
    (setNameAndLabelsFromDeployment { emptyDev with Labels := some [("tier", "db")] }
        webDeployment).Labels = some [("tier", "db")] ∧
    (setNameAndLabelsFromDeployment { emptyDev with Labels := some [("tier", "db")] }
        webDeployment).Labels ≠ none := by
  decide

/-- C4, amended: `setNameAndLabelsFromDeployment` scans the label keys
`app.kubernetes.io/component`, `component`, `app` in that order; for the first
key `k` whose value `v` on the deployment is non-empty, the name of the
descriptor becomes `v` and its label selector becomes exactly the one-entry map
`{k: v}`; if no key has a non-empty value, the name becomes the name of the
deployment and the label selector stays as it was (none, if the descriptor had
none).  No other field changes.  When `component` and `app` are both set and
`app.kubernetes.io/component` is absent, name and selector come from
`component`. -/
theorem setNameAndLabelsFromDeployment_spec (dev : Dev) (d : Deployment) :
    componentLabels = ["app.kubernetes.io/component", "component", "app"] ∧
    (∀ (before : List String) (key : String) (later : List String),
      componentLabels = before ++ key :: later →
      (∀ j ∈ before, d.Labels.index j = "") → d.Labels.index key ≠ "" →
      setNameAndLabelsFromDeployment dev d =
        { dev with Name := d.Labels.index key, Labels := some [(key, d.Labels.index key)] }) ∧
    ((∀ j ∈ componentLabels, d.Labels.index j = "") →
      setNameAndLabelsFromDeployment dev d = { dev with Name := d.Name } ∧
      (setNameAndLabelsFromDeployment dev d).Labels = dev.Labels) ∧
    (d.Labels.index "app.kubernetes.io/component" = "" → d.Labels.index "component" ≠ "" →
      d.Labels.index "app" ≠ "" → d.Labels.index "app" ≠ d.Labels.index "component" →
      (setNameAndLabelsFromDeployment dev d).Name = d.Labels.index "component" ∧
      (setNameAndLabelsFromDeployment dev d).Labels =
        some [("component", d.Labels.index "component")]) := by
  refine ⟨rfl, ?_, ?_, ?_⟩
  · intro before key later hsplit hbefore hkey
    unfold setNameAndLabelsFromDeployment
    rw [hsplit]
    exact nameAndLabelsLoop_first dev d before key later hbefore hkey
  · intro hnone
    unfold setNameAndLabelsFromDeployment
    rw [nameAndLabelsLoop_none dev d componentLabels hnone]
    exact ⟨rfl, rfl⟩
  · intro h1 h2 _ _
    have := nameAndLabelsLoop_first dev d ["app.kubernetes.io/component"] "component" ["app"]
      (by simpa using h1) h2
    unfold setNameAndLabelsFromDeployment componentLabels
    simp only [List.singleton_append] at this
    rw [this]
    exact ⟨rfl, rfl⟩

/-- Witness of C4 (amended): the deployment `shop` carries `component: backend`
and `app: shop`; the descriptor is named `backend` and selects
`component: backend`. -/
theorem setNameAndLabelsFromDeployment_spec_witness :
    setNameAndLabelsFromDeployment emptyDev shopDeployment =
        { emptyDev with Name := "backend", Labels := some [("component", "backend")] } ∧
    ((setNameAndLabelsFromDeployment emptyDev shopDeployment).Name = "backend" ∧
      (setNameAndLabelsFromDeployment emptyDev shopDeployment).Labels =
        some [("component", "backend")]) :=
  ⟨(setNameAndLabelsFromDeployment_spec emptyDev shopDeployment).2.1
      ["app.kubernetes.io/component"] "component" ["app"] rfl (by decide) (by decide),
    (setNameAndLabelsFromDeployment_spec emptyDev shopDeployment).2.2.2
      (by decide) (by decide) (by decide) (by decide)⟩

/-! ## Resources: properties -/

/-- The container scan acts on the first container of the target name only. -/
theorem resourcesLoop_eq (dev : Dev) (container : String) (containers : List Container) :
    resourcesLoop dev container containers =
      match containers.find? (fun c => decide (c.Name = container)) with
      | none => dev
      | some c =>
        if c.Resources.Limits ≠ none then
          { dev with Resources := { Limits := some baselineLimits } }
        else dev := by
  induction containers with
  | nil => rfl
  | cons c rest ih =>
    by_cases hc : c.Name = container
    · simp [resourcesLoop, List.find?, hc]
    · simp [resourcesLoop, List.find?, hc, ih]

/-- C7, as stated, fails: the container `web` declares no limit (its limits map
is empty, though not nil) and the resources of the descriptor are replaced by
the baseline all the same. -/
theorem setResourcesFromPod_empty_limits :
    targetContainer emptyLimitsPod "web" =
        some { Name := "web", Resources := { Limits := some [], Requests := none } } ∧
    ¬ declaresAnyLimit { Name := "web", Resources := { Limits := some [], Requests := none } } ∧
    setResourcesFromPod emptyDev emptyLimitsPod "web" =
        { emptyDev with Resources := { Limits := some [("cpu", "1"), ("memory", "2Gi")] } } ∧
    setResourcesFromPod emptyDev emptyLimitsPod "web" ≠ emptyDev := by
  refine ⟨rfl, ?_, rfl, by decide⟩
  rintro ⟨limits, hl, hne⟩
  simp only [Option.some.injEq] at hl
  exact hne hl.symm

/-- C7, amended: if the first container of the target name has a limits map
that is not nil (as it is whenever the container declares a limit, and also
when the map is empty), the resources of the descriptor become exactly the
limits `{cpu: 1, memory: 2Gi}`, independent of the observed quantities; if its
limits map is nil, or no container has the target name, the descriptor is left
exactly as it was. -/
theorem setResourcesFromPod_spec (dev : Dev) (pod : Pod) (container : String) :
    (∀ c, targetContainer pod container = some c → c.Resources.Limits ≠ none →
      setResourcesFromPod dev pod container =
        { dev with Resources := { Limits := some [("cpu", "1"), ("memory", "2Gi")] } }) ∧
    (∀ c, targetContainer pod container = some c → declaresAnyLimit c →
      (setResourcesFromPod dev pod container).Resources.Limits =
        some [("cpu", "1"), ("memory", "2Gi")]) ∧
    (∀ c, targetContainer pod container = some c → c.Resources.Limits = none →
      setResourcesFromPod dev pod container = dev) ∧
    (targetContainer pod container = none → setResourcesFromPod dev pod container = dev) := by
  unfold setResourcesFromPod targetContainer
  rw [resourcesLoop_eq]
  refine ⟨?_, ?_, ?_, ?_⟩
  · intro c hc hl
    simp only [hc, hl, ne_eq, not_false_eq_true, if_true, baselineLimits]
  · rintro c hc ⟨limits, hl, _⟩
    simp only [hc, hl, ne_eq, reduceCtorEq, not_false_eq_true, if_true, baselineLimits]
  · intro c hc hl
    simp only [hc, hl, ne_eq, not_true_eq_false, if_false]
  · intro hc
    simp only [hc]

/-- Witness of C7 (amended): the container `web` of `limitedPod` declares
`cpu: 250m` and `memory: 64Mi`; the descriptor gets `cpu: 1`, `memory: 2Gi`. -/
theorem setResourcesFromPod_spec_witness :
    setResourcesFromPod emptyDev limitedPod "web" =
      { emptyDev with Resources := { Limits := some [("cpu", "1"), ("memory", "2Gi")] } } :=
  (setResourcesFromPod_spec emptyDev limitedPod "web").1
    { Name := "web",
      Resources := { Limits := some [("cpu", "250m"), ("memory", "64Mi")], Requests := none } }
    rfl (by decide)

/-! ## Probe-driven steps: properties -/

/-- C8, as stated, fails: the probe succeeds with the UID `0` (root) on a
descriptor without working directory and the security context stays unset. -/
theorem setUserFromPod_root :
    emptyDev.WorkDir = "" ∧
    (clusterOf webPod 0 "/app" true []).GetUserByPod webPod "web" = (0, none) ∧
    (setUserFromPod (clusterOf webPod 0 "/app" true []) emptyDev webPod "web").1 = emptyDev ∧
    (setUserFromPod (clusterOf webPod 0 "/app" true []) emptyDev webPod "web").1.SecurityContext ≠
      some { RunAsUser := some 0 } := by
  refine ⟨rfl, rfl, rfl, by decide⟩

/-- C8, amended: for a descriptor whose working directory is empty,
`setUserFromPod` consults the effective-user probe once; it sets the security
context to one whose run-as-user is `u` whenever the probe yields a UID `u`
other than zero, and it leaves the descriptor unchanged whenever the probe
yields the UID zero, be it the UID of root from a successful probe or the zero
value next to the error of a failed probe (which is then logged).  For a
descriptor whose working directory is not empty it leaves the descriptor
unchanged without consulting the probe. -/
theorem setUserFromPod_spec (k : Cluster) (dev : Dev) (pod : Pod) (container : String) :
    (dev.WorkDir = "" → (k.GetUserByPod pod container).1 ≠ 0 →
      (setUserFromPod k dev pod container).1 =
        { dev with SecurityContext := some { RunAsUser := some (k.GetUserByPod pod container).1 } }) ∧
    (dev.WorkDir = "" → (k.GetUserByPod pod container).1 = 0 →
      (setUserFromPod k dev pod container).1 = dev) ∧
    (dev.WorkDir = "" → ∀ err, k.GetUserByPod pod container = (0, some err) →
      setUserFromPod k dev pod container =
        (dev, [.call "GetUserByPod", .info ("error getting user of the deployment: " ++ err)])) ∧
    (dev.WorkDir = "" →
      (setUserFromPod k dev pod container).2.count (.call "GetUserByPod") = 1) ∧
    (dev.WorkDir ≠ "" → setUserFromPod k dev pod container = (dev, [])) := by
  refine ⟨?_, ?_, ?_, ?_, ?_⟩
  · intro hw hu
    simp [setUserFromPod, hw, hu]
  · intro hw hu
    simp [setUserFromPod, hw, hu]
  · intro hw err he
    simp [setUserFromPod, hw, he]
  · intro hw
    unfold setUserFromPod
    rcases hp : k.GetUserByPod pod container with ⟨uid, _ | err⟩ <;>
      by_cases hu : uid = 0 <;> simp [hw, hu, List.count_cons]
  · intro hw
    simp [setUserFromPod, hw]

/-- Witness of C8 (amended): the probe yields the UID `1000` on a descriptor
without working directory. -/
theorem setUserFromPod_spec_witness :
    (setUserFromPod (clusterOf webPod 1000 "/app" true []) emptyDev webPod "web").1 =
      { emptyDev with SecurityContext := some { RunAsUser := some 1000 } } :=
  (setUserFromPod_spec (clusterOf webPod 1000 "/app" true []) emptyDev webPod "web").1
    rfl (by decide)

/-- C9: for a descriptor whose working directory is empty, `setWorkDirFromPod`
sets the working directory to `/okteto` when the working-directory probe fails
and to the observed path when it succeeds, and changes no other field; for a
descriptor whose working directory is not empty it leaves the descriptor
unchanged. -/
theorem setWorkDirFromPod_spec (k : Cluster) (dev : Dev) (pod : Pod) (container : String) :
    (dev.WorkDir = "" → ∀ err, k.GetWorkdirByPod pod container = .error err →
      (setWorkDirFromPod k dev pod container).1 = { dev with WorkDir := "/okteto" }) ∧
    (dev.WorkDir = "" → ∀ workdir, k.GetWorkdirByPod pod container = .ok workdir →
      (setWorkDirFromPod k dev pod container).1 = { dev with WorkDir := workdir }) ∧
    (dev.WorkDir ≠ "" → (setWorkDirFromPod k dev pod container).1 = dev) := by
  refine ⟨?_, ?_, ?_⟩
  · intro hw err he
    simp [setWorkDirFromPod, hw, he]
  · intro hw workdir he
    simp [setWorkDirFromPod, hw, he]
  · intro hw
    simp [setWorkDirFromPod, hw]

/-- Witness of C9: the working-directory probe fails on a descriptor without
working directory. -/
theorem setWorkDirFromPod_spec_witness :
    (setWorkDirFromPod (failingProbes webPod []) emptyDev webPod "web").1 =
      { emptyDev with WorkDir := "/okteto" } :=
  (setWorkDirFromPod_spec (failingProbes webPod []) emptyDev webPod "web").1
    rfl "exec failed" rfl

/-- C10, as stated, fails: the command of the descriptor is the empty slice
(not nil), so it is not populated; `setCommandFromPod` leaves it empty and
does not consult the shell probe, whether bash is available or not. -/
theorem setCommandFromPod_empty_command :
    ¬ commandPopulated { emptyDev with Command := { Values := some [] } } ∧
    (clusterOf webPod 0 "/app" true []).CheckIfBashIsAvailable webPod "web" = true ∧
    setCommandFromPod (clusterOf webPod 0 "/app" true [])
        { emptyDev with Command := { Values := some [] } } webPod "web" =
      ({ emptyDev with Command := { Values := some [] } }, []) ∧
    (setCommandFromPod (clusterOf webPod 0 "/app" true [])
        { emptyDev with Command := { Values := some [] } } webPod "web").1.Command.Values ≠
      some ["bash"] ∧
    (failingProbes webPod []).CheckIfBashIsAvailable webPod "web" = false ∧
    setCommandFromPod (failingProbes webPod [])
        { emptyDev with Command := { Values := some [] } } webPod "web" =
      ({ emptyDev with Command := { Values := some [] } }, []) ∧
    (setCommandFromPod (failingProbes webPod [])
        { emptyDev with Command := { Values := some [] } } webPod "web").1.Command.Values ≠
      some ["sh"] := by
  refine ⟨?_, rfl, rfl, by decide, rfl, rfl, by decide⟩
  rintro ⟨values, hv, hne⟩
  simp only [Option.some.injEq] at hv
  exact hne hv.symm

/-- C10, amended: for a descriptor whose command slice is nil,
`setCommandFromPod` sets the command to the one-element sequence `bash` when
bash is detected as available and to the one-element sequence `sh` when it is
not, and changes no other field; for a descriptor whose command slice is not
nil, be it populated or empty, it leaves the descriptor, and so the command,
unchanged and does not consult the shell probe.  In particular a populated
command is left unchanged. -/
theorem setCommandFromPod_spec (k : Cluster) (dev : Dev) (pod : Pod) (container : String) :
    (dev.Command.Values = none → k.CheckIfBashIsAvailable pod container = true →
      (setCommandFromPod k dev pod container).1 =
        { dev with Command := { Values := some ["bash"] } }) ∧
    (dev.Command.Values = none → k.CheckIfBashIsAvailable pod container = false →
      (setCommandFromPod k dev pod container).1 =
        { dev with Command := { Values := some ["sh"] } }) ∧
    (dev.Command.Values ≠ none → (setCommandFromPod k dev pod container).1 = dev) ∧
    (dev.Command.Values ≠ none → setCommandFromPod k dev pod container = (dev, [])) ∧
    (commandPopulated dev → setCommandFromPod k dev pod container = (dev, [])) := by
  refine ⟨?_, ?_, ?_, ?_, ?_⟩
  · intro hv hb
    simp [setCommandFromPod, hv, hb]
  · intro hv hb
    simp [setCommandFromPod, hv, hb]
  · intro hv
    simp [setCommandFromPod, hv]
  · intro hv
    simp [setCommandFromPod, hv]
  · rintro ⟨values, hv, _⟩
    simp [setCommandFromPod, hv]

/-- Witness of C10 (amended): bash is not available and the command slice of
the descriptor is nil. -/
theorem setCommandFromPod_spec_witness :
    (setCommandFromPod (failingProbes webPod []) emptyDev webPod "web").1 =
      { emptyDev with Command := { Values := some ["sh"] } } :=
  (setCommandFromPod_spec (failingProbes webPod []) emptyDev webPod "web").2.1 rfl rfl


/-! ## The pipeline: properties -/

/-- The name-and-labels step acts in one of two ways, chosen by the deployment
alone. -/
theorem setNameAndLabelsFromDeployment_cases (d : Deployment) :
    (∃ key v, ∀ dev, setNameAndLabelsFromDeployment dev d =
      { dev with Name := v, Labels := some [(key, v)] }) ∨
    (∀ dev, setNameAndLabelsFromDeployment dev d = { dev with Name := d.Name }) := by
  unfold setNameAndLabelsFromDeployment componentLabels
  by_cases h1 : d.Labels.index "app.kubernetes.io/component" = ""
  · by_cases h2 : d.Labels.index "component" = ""
    · by_cases h3 : d.Labels.index "app" = ""
      · exact Or.inr fun dev => by simp [nameAndLabelsLoop, h1, h2, h3]
      · exact Or.inl ⟨"app", d.Labels.index "app", fun dev => by
          simp only [nameAndLabelsLoop, h1, h2, h3, if_true, if_false]⟩
    · exact Or.inl ⟨"component", d.Labels.index "component", fun dev => by
        simp only [nameAndLabelsLoop, h1, h2, if_true, if_false]⟩
  · exact Or.inl ⟨"app.kubernetes.io/component", d.Labels.index "app.kubernetes.io/component",
      fun dev => by simp only [nameAndLabelsLoop, h1, if_false]⟩

/-- The annotations step acts in one of two ways, chosen by the deployment
alone. -/
theorem setAnnotationsFromDeployment_cases (fluxKey : String) (d : Deployment) :
    (∀ dev, setAnnotationsFromDeployment fluxKey dev d =
      { dev with Annotations := some [("fluxcd.io/ignore", "true")] }) ∨
    (∀ dev, setAnnotationsFromDeployment fluxKey dev d = dev) := by
  unfold setAnnotationsFromDeployment
  by_cases h : d.Annotations.index fluxKey = ""
  · exact Or.inr fun dev => by simp [h]
  · exact Or.inl fun dev => by simp [h]

/-- The resources step acts in one of two ways, chosen by the pod and the
target name alone. -/
theorem setResourcesFromPod_cases (pod : Pod) (container : String) :
    (∀ dev, setResourcesFromPod dev pod container =
      { dev with Resources := { Limits := some baselineLimits } }) ∨
    (∀ dev, setResourcesFromPod dev pod container = dev) := by
  unfold setResourcesFromPod
  cases hf : pod.Containers.find? (fun c => decide (c.Name = container)) with
  | none => exact Or.inr fun dev => by rw [resourcesLoop_eq, hf]
  | some c =>
    by_cases hl : c.Resources.Limits = none
    · exact Or.inr fun dev => by rw [resourcesLoop_eq, hf]; simp [hl]
    · exact Or.inl fun dev => by rw [resourcesLoop_eq, hf]; simp [hl]

/-- The three probe-driven steps rewrite the working directory, the command
and the security context from those three fields and the probes. -/
theorem guarded_steps_cases (k : Cluster) (pod : Pod) (container : String) (dev : Dev) :
    ∃ (w : String) (c : Command) (sc : Option SecurityContext),
      (setCommandFromPod k (setWorkDirFromPod k (setUserFromPod k dev pod container).1
        pod container).1 pod container).1 =
        { dev with WorkDir := w, Command := c, SecurityContext := sc } ∧
      ∀ (n : String) (l a : Option StringMap) (r : ResourceRequirements),
        (setCommandFromPod k (setWorkDirFromPod k (setUserFromPod k
          { dev with Name := n, Labels := l, Annotations := a, Resources := r,
                     WorkDir := w, Command := c, SecurityContext := sc } pod container).1
          pod container).1 pod container).1 =
        { dev with Name := n, Labels := l, Annotations := a, Resources := r,
                   WorkDir := w, Command := c, SecurityContext := sc } := by
  obtain ⟨n0, l0, a0, w0, ⟨c0⟩, sc0, r0, f0⟩ := dev
  simp only [setUserFromPod, setWorkDirFromPod, setCommandFromPod]
  rcases hu : k.GetUserByPod pod container with ⟨uid, uerr⟩
  by_cases hw : w0 = "" <;> by_cases huid : uid = 0 <;> cases c0 <;>
    cases hb : k.CheckIfBashIsAvailable pod container <;>
    rcases hwd : k.GetWorkdirByPod pod container with e | wd <;>
    simp only [hw, huid, ne_eq, not_true_eq_false, not_false_eq_true, if_true, if_false,
      reduceCtorEq, Bool.false_eq_true] <;>
    refine ⟨_, _, _, rfl, ?_⟩ <;> intros <;> (try split_ifs) <;> simp_all


/-- With no declared port, a second run of the synthesis steps reproduces the
descriptor left by the first run. -/
theorem synthesize_twice (fuel : Nat) (fluxKey : String) (k : Cluster) (dev : Dev)
    (d : Deployment) (pod : Pod) (container : String)
    (hports : k.GetPortsByPod pod = .ok []) :
    ∃ dev1, (synthesize fuel fluxKey k dev d pod container).1 = some (.ok dev1) ∧
      (synthesize fuel fluxKey k dev1 d pod container).1 = some (.ok dev1) := by
  obtain ⟨w, c, sc, hg, hg2⟩ := guarded_steps_cases k pod container dev
  simp only [synthesize, setForwardsFromPod, hports, forwardsLoop]
  refine ⟨_, rfl, ?_⟩
  rw [hg]
  rcases setNameAndLabelsFromDeployment_cases d with ⟨key, v, hn⟩ | hn <;>
    rcases setAnnotationsFromDeployment_cases fluxKey d with ha | ha <;>
    rcases setResourcesFromPod_cases pod container with hr | hr <;>
    simp only [hn, ha, hr] <;> rw [hg2]


/-- Once the client is obtained and the running pod resolved,
`SetDevDefaultsFromDeployment` returns what the synthesis steps return. -/
theorem SetDevDefaultsFromDeployment_eq_synthesize (fuel : Nat) (fluxKey : String)
    (k : Cluster) (dev : Dev) (d : Deployment) (container : String) (pod : Pod)
    (hlocal : k.GetLocal = none) (hpod : (getRunningPod k d container).1 = .ok pod) :
    (SetDevDefaultsFromDeployment fuel fluxKey k dev d container).1 =
      (synthesize fuel fluxKey k dev d pod container).1 := by
  unfold SetDevDefaultsFromDeployment
  rw [hlocal]
  rcases hg : getRunningPod k d container with ⟨r, events⟩
  rw [hg] at hpod
  simp only at hpod
  subst hpod
  rfl

/-- C5, as stated, fails: `fullDev` has every guarded field set, yet the
synthesis steps for the deployment `shop` and the pod `limitedPod`, which
declares the port `8080`, replace its name, label selector and resources and
append a forward; a second run appends one more forward, so two runs differ
from one. -/
theorem synthesize_overwrites_populated :
    fullyPopulated fullDev ∧
    (synthesize 3 "flux" (clusterOf limitedPod 0 "/app" true [8080]) fullDev shopDeployment
        limitedPod "web").1 =
      some (.ok { fullDev with
        Name := "backend", Labels := some [("component", "backend")],
        Resources := { Limits := some [("cpu", "1"), ("memory", "2Gi")] },
        Forward := [{ Local := 8080, Remote := 8080 }, { Local := 8081, Remote := 8080 }] }) ∧
    (synthesize 3 "flux" (clusterOf limitedPod 0 "/app" true [8080])
        { fullDev with
          Name := "backend", Labels := some [("component", "backend")],
          Resources := { Limits := some [("cpu", "1"), ("memory", "2Gi")] },
          Forward := [{ Local := 8080, Remote := 8080 }, { Local := 8081, Remote := 8080 }] }
        shopDeployment limitedPod "web").1 =
      some (.ok { fullDev with
        Name := "backend", Labels := some [("component", "backend")],
        Resources := { Limits := some [("cpu", "1"), ("memory", "2Gi")] },
        Forward := [{ Local := 8080, Remote := 8080 }, { Local := 8081, Remote := 8080 },
          { Local := 8082, Remote := 8080 }] }) ∧
    ¬ (∀ (fuel : Nat) (fluxKey : String) (k : Cluster) (dev : Dev) (d : Deployment) (pod : Pod)
        (container : String), fullyPopulated dev →
        (synthesize fuel fluxKey k dev d pod container).1 = some (.ok dev)) := by
  refine ⟨by decide, rfl, rfl, fun h => ?_⟩
  have h1 := h 3 "flux" (clusterOf limitedPod 0 "/app" true [8080]) fullDev shopDeployment
    limitedPod "web" (by decide)
  have h2 : (synthesize 3 "flux" (clusterOf limitedPod 0 "/app" true [8080]) fullDev
      shopDeployment limitedPod "web").1 = some (.ok { fullDev with
        Name := "backend", Labels := some [("component", "backend")],
        Resources := { Limits := some [("cpu", "1"), ("memory", "2Gi")] },
        Forward := [{ Local := 8080, Remote := 8080 }, { Local := 8081, Remote := 8080 }] }) := rfl
  rw [h2] at h1
  simp only [Option.some.injEq, Except.ok.injEq] at h1
  exact absurd (congrArg Dev.Name h1) (by decide)

/-- C5, amended: for a descriptor whose working directory is not empty and
whose command is populated, `setUserFromPod`, `setWorkDirFromPod` and
`setCommandFromPod` leave the descriptor unchanged and consult no probe,
whatever the probes would return, so the synthesis steps reduce to the four
steps that carry no guard: name and labels, annotations, resources and
forwards.  The synthesis leaves such a descriptor unchanged when, moreover,
those steps find nothing to change: name, label selector, annotations and
resources already are what the deployment and the pod dictate, and the ports
probe declares no port.  For every descriptor, when the ports probe declares no
port and the probes answer the same both times, running the synthesis steps
twice yields the same descriptor as running them once. -/
theorem synthesize_idempotent (fuel : Nat) (fluxKey : String) (k : Cluster) (dev : Dev)
    (d : Deployment) (pod : Pod) (container : String) :
    (dev.WorkDir ≠ "" → dev.Command.Values ≠ none →
      setUserFromPod k dev pod container = (dev, []) ∧
      setWorkDirFromPod k dev pod container = (dev, []) ∧
      setCommandFromPod k dev pod container = (dev, []) ∧
      synthesize fuel fluxKey k dev d pod container =
        setForwardsFromPod fuel k
          (setResourcesFromPod
            (setAnnotationsFromDeployment fluxKey (setNameAndLabelsFromDeployment dev d) d)
            pod container) pod) ∧
    (dev.WorkDir ≠ "" → dev.Command.Values ≠ none →
      setNameAndLabelsFromDeployment dev d = dev →
      setAnnotationsFromDeployment fluxKey dev d = dev →
      setResourcesFromPod dev pod container = dev →
      k.GetPortsByPod pod = .ok [] →
      synthesize fuel fluxKey k dev d pod container = (some (.ok dev), [.call "GetPortsByPod"])) ∧
    (k.GetPortsByPod pod = .ok [] →
      ∃ dev1, (synthesize fuel fluxKey k dev d pod container).1 = some (.ok dev1) ∧
        (synthesize fuel fluxKey k dev1 d pod container).1 = some (.ok dev1)) := by
  have hguard : dev.WorkDir ≠ "" → dev.Command.Values ≠ none →
      setUserFromPod k dev pod container = (dev, []) ∧
      setWorkDirFromPod k dev pod container = (dev, []) ∧
      setCommandFromPod k dev pod container = (dev, []) := by
    intro hw hc
    simp [setUserFromPod, setWorkDirFromPod, setCommandFromPod, hw, hc]
  have hsyn : dev.WorkDir ≠ "" → dev.Command.Values ≠ none →
      synthesize fuel fluxKey k dev d pod container =
        setForwardsFromPod fuel k
          (setResourcesFromPod
            (setAnnotationsFromDeployment fluxKey (setNameAndLabelsFromDeployment dev d) d)
            pod container) pod := by
    intro hw hc
    obtain ⟨h1, h2, h3⟩ := hguard hw hc
    simp only [synthesize, h1, h2, h3, List.nil_append]
  refine ⟨fun hw hc => ⟨(hguard hw hc).1, (hguard hw hc).2.1, (hguard hw hc).2.2, hsyn hw hc⟩,
    ?_, synthesize_twice fuel fluxKey k dev d pod container⟩
  intro hw hc hn ha hr hp
  rw [hsyn hw hc, hn, ha, hr]
  simp only [setForwardsFromPod, hp, forwardsLoop]

/-- Witness of C5 (amended): `fullDev` against the deployment `web`, which has
none of the three labels and no annotation, and the pod `webPod`, which
declares neither limits nor ports. -/
theorem synthesize_idempotent_witness :
    synthesize 1 "flux" (clusterOf webPod 0 "/app" true []) { fullDev with Name := "web" }
        webDeployment webPod "web" =
      (some (.ok { fullDev with Name := "web" }), [.call "GetPortsByPod"]) :=
  (synthesize_idempotent 1 "flux" (clusterOf webPod 0 "/app" true []) { fullDev with Name := "web" }
    webDeployment webPod "web").2.1 (by decide) (by decide) rfl rfl rfl rfl

end Okteto
